import Mathlib

/-!
Shallow embedding of `utils/train_utils.py` (densenet3d repository).

Conventions of the embedding:
- Python floats are modelled as rationals (`ℚ`): every arithmetic operation the
  module performs (division by a norm value, multiplication by powers of 0.1,
  running sums) is exact rational arithmetic.
- The process-wide global `Config` object is passed explicitly as a parameter.
- A fatal Python `assert` (or an unguarded `ZeroDivisionError`) is modelled by
  returning `none` from an `Option`-valued function; `none` means the call
  fails with no observable effect.
- External constructors (`Normalize`, crop transforms, `optim.SGD`,
  `optim.Adam`) are modelled as inert records/inductives that just hold the
  arguments they were constructed with.
- File-system effects (`torch.save`, `shutil.copyfile`) are modelled as a list
  of effect descriptions; the `Logger`'s stream is modelled as a buffered file
  (a buffer plus durable content, with an explicit flush).
-/

/-- The global configuration object `Config` read by `train_utils.py`.
Only the fields this module reads are modelled. -/
structure Config where
  mean_norm : Bool
  std_norm : Bool
  train_crop : String
  sample_size : ℕ
  n_classes : ℕ
  optimizer : String
  nesterov : Bool
  dampening : ℚ
  learning_rate : ℚ
  momentum : ℚ
  weight_decay : ℚ
  betas : ℚ × ℚ
  eps : ℚ
  amsgrad : Bool
  result_path : String
  store_name : String
  lr_steps : List ℤ
  deriving Repr, DecidableEq

/-- The external `Normalize(mean, std)` transform: an inert record of its two
constructor arguments. -/
structure Normalize where
  mean : List ℚ
  std : List ℚ
  deriving Repr, DecidableEq

/-- `set_norm_method(mean, std)` from `train_utils.py`:
`if Config.mean_norm and not Config.std_norm: return Normalize([0,0,0],[1,1,1])`
`elif not Config.std_norm: return Normalize(mean, [1,1,1])`
`else: return Normalize(mean, std)`. -/
def set_norm_method (cfg : Config) (mean std : List ℚ) : Normalize :=
  if cfg.mean_norm && !cfg.std_norm then
    { mean := [0, 0, 0], std := [1, 1, 1] }
  else if !cfg.std_norm then
    { mean := mean, std := [1, 1, 1] }
  else
    { mean := mean, std := std }

/-- The external crop transforms: inert records of their constructor
arguments. `crop_positions` is `none` when the keyword argument is omitted. -/
inductive SpatialCrop where
  | MultiScaleRandomCrop (scales : List ℚ) (sample_size : ℕ)
  | MultiScaleCornerCrop (scales : List ℚ) (sample_size : ℕ)
      (crop_positions : Option (List String))
  deriving Repr, DecidableEq

/-- `set_crop_method(scales)` from `train_utils.py`:
`assert Config.train_crop in ['random','corner','center']`, then dispatch on
the crop mode. A failed assertion is `none`. -/
def set_crop_method (cfg : Config) (scales : List ℚ) : Option SpatialCrop :=
  if cfg.train_crop ∈ (["random", "corner", "center"] : List String) then
    if cfg.train_crop = "random" then
      some (.MultiScaleRandomCrop scales cfg.sample_size)
    else if cfg.train_crop = "corner" then
      some (.MultiScaleCornerCrop scales cfg.sample_size none)
    else if cfg.train_crop = "center" then
      some (.MultiScaleCornerCrop scales cfg.sample_size (some ["c"]))
    else none
  else none

/-- The external optimizers `optim.SGD` / `optim.Adam`: inert records of the
arguments they were constructed with. `P` is the type of the parameter set
passed as first argument. -/
inductive Optim (P : Type) where
  | SGD (params : P) (lr : ℚ) (momentum : ℚ) (dampening : ℚ)
      (weight_decay : ℚ) (nesterov : Bool)
  | Adam (params : P) (lr : ℚ) (betas : ℚ × ℚ) (eps : ℚ)
      (weight_decay : ℚ) (amsgrad : Bool)
  deriving Repr, DecidableEq

/-- `set_optimizer(model)` from `train_utils.py`:
`assert(Config.optimizer == 'SGD' or Config.optimizer == 'Adam')`; for SGD,
`dampening = 0 if Config.nesterov else Config.dampening`; otherwise Adam.
The model's parameter set is the explicit argument `params`. -/
def set_optimizer {P : Type} (cfg : Config) (params : P) : Option (Optim P) :=
  if cfg.optimizer = "SGD" ∨ cfg.optimizer = "Adam" then
    if cfg.optimizer = "SGD" then
      some (.SGD params cfg.learning_rate cfg.momentum
        (if cfg.nesterov then 0 else cfg.dampening) cfg.weight_decay
        cfg.nesterov)
    else
      some (.Adam params cfg.learning_rate cfg.betas cfg.eps
        cfg.weight_decay cfg.amsgrad)
  else none

/-- `get_mean(norm_value, dataset)` from `train_utils.py`:
`assert dataset in ['activitynet', 'kinetics']`, then return the per-channel
mean constants of that dataset, each divided by `norm_value`. -/
def get_mean (norm_value : ℚ) (dataset : String) : Option (List ℚ) :=
  if dataset ∈ (["activitynet", "kinetics"] : List String) then
    if dataset = "activitynet" then
      some [114.7748 / norm_value, 107.7354 / norm_value, 99.4750 / norm_value]
    else if dataset = "kinetics" then
      some [110.63666788 / norm_value, 103.16065604 / norm_value,
        96.29023126 / norm_value]
    else none
  else none

/-- `get_std(norm_value)` from `train_utils.py`: the Kinetics per-channel
standard deviations divided by `norm_value`; there is no dataset parameter. -/
def get_std (norm_value : ℚ) : List ℚ :=
  [38.7568578 / norm_value, 37.88248729 / norm_value,
    40.02898126 / norm_value]

/-- A file-system effect performed by `save_checkpoint`: `torch.save` is a
`write`, `shutil.copyfile` is a `copyfile`. -/
inductive FsOp where
  | write (path : String) (blob : String)
  | copyfile (src : String) (dst : String)
  deriving Repr, DecidableEq

/-- `save_checkpoint(state, is_best, store_name)` from `train_utils.py`:
`torch.save(state, '%s/%s_checkpoint.pth' % (Config.result_path, store_name))`;
if `is_best`, `shutil.copyfile` of that file to
`'%s/%s_best.pth' % (Config.result_path, Config.store_name)`.
The state blob is opaque and modelled as a `String`; the result is the list
of file-system effects in the order they happen. -/
def save_checkpoint (cfg : Config) (state : String) (is_best : Bool)
    (store_name : String) : List FsOp :=
  [FsOp.write (cfg.result_path ++ "/" ++ store_name ++ "_checkpoint.pth") state]
    ++ (if is_best then
        [FsOp.copyfile
          (cfg.result_path ++ "/" ++ store_name ++ "_checkpoint.pth")
          (cfg.result_path ++ "/" ++ cfg.store_name ++ "_best.pth")]
      else [])

/-- One entry of `optimizer.param_groups`; only the `'lr'` key is touched by
this module. -/
structure ParamGroup where
  lr : ℚ
  deriving Repr, DecidableEq

/-- The optimizer state seen by `adjust_learning_rate`: its parameter
groups. -/
structure Optimizer where
  param_groups : List ParamGroup
  deriving Repr, DecidableEq

/-- `adjust_learning_rate(optimizer, epoch)` from `train_utils.py`:
`lr_new = Config.learning_rate * (0.1 ** (sum(epoch >= np.array(Config.lr_steps))))`;
then every parameter group's `'lr'` is overwritten with `lr_new`.
`sum(epoch >= np.array(steps))` is the number of steps `s` with `s ≤ epoch`. -/
def adjust_learning_rate (cfg : Config) (optimizer : Optimizer) (epoch : ℤ) :
    Optimizer :=
  let lr_new := cfg.learning_rate *
    (1 / 10 : ℚ) ^ (cfg.lr_steps.countP (fun step => decide (step ≤ epoch)))
  { param_groups := optimizer.param_groups.map (fun _ => { lr := lr_new }) }

/-- The `Logger`'s observable state: its fixed `header`, the `durable` lines
already flushed to storage, and the `buffer` of lines written to the stream
but not yet flushed. A line is a tab-joined row. -/
structure Logger where
  header : List String
  durable : List String
  buffer : List String
  deriving Repr, DecidableEq

/-- `csv.writer(..., delimiter='\t').writerow(row)`: append one tab-joined
line to the stream's buffer. -/
def Logger.writerow (s : Logger) (row : List String) : Logger :=
  { s with buffer := s.buffer ++ [String.intercalate "\t" row] }

/-- `self.log_file.flush()`: move everything buffered to durable storage. -/
def Logger.flush (s : Logger) : Logger :=
  { s with durable := s.durable ++ s.buffer, buffer := [] }

/-- `Logger.__init__(path, header)`: open the file (empty) and write the
header row (not flushed). -/
def Logger.init (header : List String) : Logger :=
  Logger.writerow { header := header, durable := [], buffer := [] } header

/-- The accumulation loop of `Logger.log`: for each header column, assert the
column is a key of `values` and collect `values[col]`; `none` models the
failed assertion, at which point nothing has been written. Values are
scalars rendered as strings; the dict is an association list. -/
def collectValues (values : List (String × String)) :
    List String → Option (List String)
  | [] => some []
  | col :: rest =>
    match values.lookup col with
    | none => none
    | some v => (collectValues values rest).map (fun ws => v :: ws)

/-- `Logger.log(values)` from `train_utils.py`: collect the values in header
order (asserting every column is present), write the row, flush. -/
def Logger.log (s : Logger) (values : List (String × String)) :
    Option Logger :=
  match collectValues values s.header with
  | none => none
  | some row => some ((s.writerow row).flush)

/-- `AverageMeter`'s four fields. `count` accumulates the integer weights
`n`. -/
structure AverageMeter where
  val : ℚ
  avg : ℚ
  sum : ℚ
  count : ℕ
  deriving Repr, DecidableEq

/-- `AverageMeter.__init__` calls `reset()`: all four fields are zero. -/
def AverageMeter.init : AverageMeter :=
  { val := 0, avg := 0, sum := 0, count := 0 }

/-- `AverageMeter.reset()`: zero all four fields. -/
def AverageMeter.reset (_ : AverageMeter) : AverageMeter :=
  { val := 0, avg := 0, sum := 0, count := 0 }

/-- `AverageMeter.update(val, n)`:
`self.val = val; self.sum += val * n; self.count += n;`
`self.avg = self.sum / self.count`. The final division raises
`ZeroDivisionError` when the updated count is zero, modelled as `none`. -/
def AverageMeter.update (m : AverageMeter) (val : ℚ) (n : ℕ) :
    Option AverageMeter :=
  if m.count + n = 0 then none
  else
    some { val := val, avg := (m.sum + val * n) / ((m.count : ℚ) + n),
           sum := m.sum + val * n, count := m.count + n }

/-- A sequence of `update(val, n)` calls starting from state `m`; fails as
soon as one call fails. -/
def runUpdates (m : AverageMeter) (l : List (ℚ × ℕ)) : Option AverageMeter :=
  l.foldlM (fun s p => s.update p.1 p.2) m

/-- The ordering used by the embedding's deterministic model of
`torch.topk(..., largest=True, sorted=True)` on one row of scores:
index `i` comes before index `j` when its score is larger, ties broken by
the smaller index. (Tie-breaking of the real top-k is implementation
defined; the claims are stated relative to this embedding's choice.) -/
def topkRel (row : List ℚ) (i j : ℕ) : Prop :=
  row.getD j 0 < row.getD i 0 ∨ (row.getD i 0 = row.getD j 0 ∧ i ≤ j)

instance (row : List ℚ) : DecidableRel (topkRel row) := fun i j => by
  unfold topkRel; exact inferInstance

instance (row : List ℚ) : IsTotal ℕ (topkRel row) where
  total i j := by
    rcases lt_trichotomy (row.getD i 0) (row.getD j 0) with h | h | h
    · exact Or.inr (Or.inl h)
    · rcases Nat.le_total i j with hle | hle
      · exact Or.inl (Or.inr ⟨h, hle⟩)
      · exact Or.inr (Or.inr ⟨h.symm, hle⟩)
    · exact Or.inl (Or.inl h)

instance (row : List ℚ) : IsTrans ℕ (topkRel row) where
  trans i j k hij hjk := by
    rcases hij with hij | ⟨hij, hij2⟩ <;> rcases hjk with hjk | ⟨hjk, hjk2⟩
    · exact Or.inl (hjk.trans hij)
    · exact Or.inl (hjk ▸ hij)
    · exact Or.inl (hij ▸ hjk)
    · exact Or.inr ⟨hij.trans hjk, hij2.trans hjk2⟩

/-- All class indices of a score row, ordered by descending score (ties by
ascending index): the embedding's model of a full `sorted=True` top-k. -/
def sortedIdx (row : List ℚ) : List ℕ :=
  List.insertionSort (topkRel row) (List.range row.length)

/-- The indices of the `k` highest-scoring classes of `row`, in descending
score order: the embedding's model of `row.topk(k, largest=True,
sorted=True).indices`. -/
def topkIdx (row : List ℚ) (k : ℕ) : List ℕ :=
  (sortedIdx row).take k

/-- Transpose of a rectangular matrix whose rows have length `n`
(`Tensor.t()`); `d` pads ragged rows, unused on rectangular input. -/
def transposeN {α : Type} (n : ℕ) (d : α) (M : List (List α)) :
    List (List α) :=
  (List.range n).map (fun j => M.map (fun r => r.getD j d))

/-- `calculate_accuracy(output, target, topk)` from `train_utils.py`:
`maxk = max(topk)`; `pred = output.topk(maxk, 1, True, True).indices.t()`;
`correct = pred.eq(target.view(1,-1).expand_as(pred))`; for each `k`,
`correct_k = correct[:k].view(-1).float().sum(0)` and the reported value is
`correct_k * (100.0 / batch_size)`. -/
def calculate_accuracy (output : List (List ℚ)) (target : List ℕ)
    (topk : List ℕ) : List ℚ :=
  let maxk := topk.foldr max 0
  let batch_size := target.length
  let pred := output.map (fun row => topkIdx row maxk)
  let predT := transposeN maxk 0 pred
  let correct := predT.map (fun prow =>
    List.zipWith (fun p t => decide (p = t)) prow target)
  topk.map (fun k =>
    let correct_k : ℕ := (correct.take k).flatten.countP (fun b => b)
    (correct_k : ℚ) * (100 / (batch_size : ℚ)))

/-- A concrete configuration used to instantiate the theorems: SGD with the
repository's usual hyperparameters, `lr_steps = [30, 60]`,
`learning_rate = 1/10`. -/
def cfg0 : Config :=
  { mean_norm := false, std_norm := true, train_crop := "random",
    sample_size := 112, n_classes := 10, optimizer := "SGD",
    nesterov := false, dampening := 9 / 10, learning_rate := 1 / 10,
    momentum := 9 / 10, weight_decay := 1 / 1000,
    betas := (9 / 10, 999 / 1000), eps := 1 / 100000000, amsgrad := false,
    result_path := "results", store_name := "densenet",
    lr_steps := [30, 60] }

/-- C1: `set_norm_method` follows the precedence table: when `mean_norm` is
true and `std_norm` is false it returns mean=[0,0,0], std=[1,1,1]; otherwise
when `std_norm` is false it returns the supplied mean with std=[1,1,1];
otherwise it returns the supplied mean and supplied std. -/
theorem set_norm_method_follows_precedence_table (cfg : Config)
    (mean std : List ℚ) :
    (cfg.mean_norm = true → cfg.std_norm = false →
      set_norm_method cfg mean std =
        { mean := [0, 0, 0], std := [1, 1, 1] }) ∧
    (¬(cfg.mean_norm = true ∧ cfg.std_norm = false) → cfg.std_norm = false →
      set_norm_method cfg mean std = { mean := mean, std := [1, 1, 1] }) ∧
    (cfg.std_norm = true →
      set_norm_method cfg mean std = { mean := mean, std := std }) := by
  rcases hm : cfg.mean_norm <;> rcases hs : cfg.std_norm <;>
    simp [set_norm_method, hm, hs]

theorem set_norm_method_follows_precedence_table_witness :
    set_norm_method { cfg0 with mean_norm := true, std_norm := false }
        [1, 2, 3] [4, 5, 6] = { mean := [0, 0, 0], std := [1, 1, 1] } :=
  (set_norm_method_follows_precedence_table
    { cfg0 with mean_norm := true, std_norm := false } [1, 2, 3] [4, 5, 6]).1
    rfl rfl

/-- C3: `save_checkpoint` writes the state to
`<result_path>/<store_name>_checkpoint.pth` (using the parameter), and
exactly when `is_best` is true it additionally copies that file to
`<result_path>/<Config.store_name>_best.pth`, whose name component is the
globally configured store name. -/
theorem save_checkpoint_writes_and_best_copy (cfg : Config) (state : String)
    (is_best : Bool) (store_name : String) :
    (is_best = true →
      save_checkpoint cfg state is_best store_name =
        [FsOp.write (cfg.result_path ++ "/" ++ store_name ++
            "_checkpoint.pth") state,
          FsOp.copyfile
            (cfg.result_path ++ "/" ++ store_name ++ "_checkpoint.pth")
            (cfg.result_path ++ "/" ++ cfg.store_name ++ "_best.pth")]) ∧
    (is_best = false →
      save_checkpoint cfg state is_best store_name =
        [FsOp.write (cfg.result_path ++ "/" ++ store_name ++
            "_checkpoint.pth") state]) := by
  constructor <;> intro h <;> simp [save_checkpoint, h]

theorem save_checkpoint_writes_and_best_copy_witness :
    save_checkpoint { cfg0 with result_path := "res", store_name := "global" }
        "blob" true "local" =
      [FsOp.write "res/local_checkpoint.pth" "blob",
        FsOp.copyfile "res/local_checkpoint.pth" "res/global_best.pth"] := by
  rw [(save_checkpoint_writes_and_best_copy
    { cfg0 with result_path := "res", store_name := "global" }
    "blob" true "local").1 rfl]
  decide

/-- C4: `get_std` returns the fixed Kinetics per-channel standard deviations
divided by `norm_value` (it has no dataset parameter), while `get_mean`
returns the named dataset's per-channel means divided by `norm_value`. -/
theorem get_std_fixed_and_get_mean_per_dataset (norm_value : ℚ) :
    get_std norm_value =
      [38.7568578 / norm_value, 37.88248729 / norm_value,
        40.02898126 / norm_value] ∧
    get_mean norm_value "activitynet" =
      some [114.7748 / norm_value, 107.7354 / norm_value,
        99.4750 / norm_value] ∧
    get_mean norm_value "kinetics" =
      some [110.63666788 / norm_value, 103.16065604 / norm_value,
        96.29023126 / norm_value] :=
  ⟨rfl, rfl, rfl⟩

/-- C5: `set_optimizer` with kind "SGD" builds an SGD optimizer with the
configured learning rate, momentum, weight decay and nesterov flag, and
dampening 0 when nesterov is set (the configured dampening otherwise); with
kind "Adam" it builds an Adam optimizer with the configured learning rate,
betas, eps, weight decay and amsgrad flag. -/
theorem set_optimizer_matches_config {P : Type} (cfg : Config) (params : P) :
    (cfg.optimizer = "SGD" →
      set_optimizer cfg params =
        some (.SGD params cfg.learning_rate cfg.momentum
          (if cfg.nesterov then 0 else cfg.dampening) cfg.weight_decay
          cfg.nesterov)) ∧
    (cfg.optimizer = "Adam" →
      set_optimizer cfg params =
        some (.Adam params cfg.learning_rate cfg.betas cfg.eps
          cfg.weight_decay cfg.amsgrad)) := by
  constructor <;> intro h <;> simp [set_optimizer, h]

theorem set_optimizer_matches_config_witness :
    set_optimizer { cfg0 with nesterov := true, dampening := 7 } (0 : ℕ) =
      some (.SGD 0 (1 / 10) (9 / 10) 0 (1 / 1000) true) := by
  rw [(set_optimizer_matches_config
    { cfg0 with nesterov := true, dampening := 7 } (0 : ℕ)).1 rfl]
  simp [cfg0]

/-- C7: an unknown crop mode, optimizer kind, or dataset name makes
`set_crop_method`, `set_optimizer`, and `get_mean` respectively fail their
assertion (return `none`) rather than return a default. -/
theorem invalid_inputs_fail_assertions {P : Type} (cfg : Config)
    (scales : List ℚ) (params : P) (norm_value : ℚ) (dataset : String) :
    (cfg.train_crop ∉ (["random", "corner", "center"] : List String) →
      set_crop_method cfg scales = none) ∧
    (cfg.optimizer ≠ "SGD" → cfg.optimizer ≠ "Adam" →
      set_optimizer cfg params = none) ∧
    (dataset ∉ (["activitynet", "kinetics"] : List String) →
      get_mean norm_value dataset = none) := by
  refine ⟨fun h => ?_, fun h1 h2 => ?_, fun h => ?_⟩
  · simp [set_crop_method, h]
  · simp [set_optimizer, h1, h2]
  · simp [get_mean, h]

theorem invalid_inputs_fail_assertions_witness :
    set_crop_method { cfg0 with train_crop := "weird" } [] = none ∧
    set_optimizer { cfg0 with optimizer := "RMSprop" } (0 : ℕ) = none ∧
    get_mean 255 "ucf101" = none :=
  ⟨(invalid_inputs_fail_assertions { cfg0 with train_crop := "weird" }
      [] (0 : ℕ) 255 "ucf101").1 (by decide),
    (invalid_inputs_fail_assertions { cfg0 with optimizer := "RMSprop" }
      [] (0 : ℕ) 255 "ucf101").2.1 (by decide) (by decide),
    (invalid_inputs_fail_assertions cfg0 [] (0 : ℕ) 255 "ucf101").2.2
      (by decide)⟩

/-- C2: `adjust_learning_rate` sets every parameter group's learning rate to
`base_lr * 0.1^k` where `k` is the number of configured step boundaries that
are `≤ epoch`; the result is invariant under permuting `lr_steps`; and with
`lr_steps = [30, 60]`, `base_lr = 1/10`: epoch 10 gives 1/10, epoch 30 gives
1/100, epoch 75 gives 1/1000. -/
theorem adjust_learning_rate_step_decay :
    (∀ (cfg : Config) (opt : Optimizer) (epoch : ℤ),
      ∀ g ∈ (adjust_learning_rate cfg opt epoch).param_groups,
        g.lr = cfg.learning_rate *
          (1 / 10 : ℚ) ^
            (cfg.lr_steps.countP (fun step => decide (step ≤ epoch)))) ∧
    (∀ (cfg : Config) (steps' : List ℤ), cfg.lr_steps.Perm steps' →
      ∀ (opt : Optimizer) (epoch : ℤ),
        adjust_learning_rate cfg opt epoch =
          adjust_learning_rate { cfg with lr_steps := steps' } opt epoch) ∧
    (∀ g ∈ (adjust_learning_rate cfg0 ⟨[⟨1⟩]⟩ 10).param_groups,
      g.lr = 1 / 10) ∧
    (∀ g ∈ (adjust_learning_rate cfg0 ⟨[⟨1⟩]⟩ 30).param_groups,
      g.lr = 1 / 100) ∧
    (∀ g ∈ (adjust_learning_rate cfg0 ⟨[⟨1⟩]⟩ 75).param_groups,
      g.lr = 1 / 1000) := by
  have hlr : ∀ (cfg : Config) (opt : Optimizer) (epoch : ℤ),
      ∀ g ∈ (adjust_learning_rate cfg opt epoch).param_groups,
        g.lr = cfg.learning_rate *
          (1 / 10 : ℚ) ^
            (cfg.lr_steps.countP (fun step => decide (step ≤ epoch))) := by
    intro cfg opt epoch g hg
    simp only [adjust_learning_rate, List.mem_map] at hg
    obtain ⟨g', _, rfl⟩ := hg
    rfl
  refine ⟨hlr, ?_, ?_, ?_, ?_⟩
  · intro cfg steps' hperm opt epoch
    simp only [adjust_learning_rate]
    rw [List.Perm.countP_eq _ hperm]
  · intro g hg
    rw [hlr cfg0 ⟨[⟨1⟩]⟩ 10 g hg]
    norm_num [cfg0]
  · intro g hg
    rw [hlr cfg0 ⟨[⟨1⟩]⟩ 30 g hg]
    norm_num [cfg0]
  · intro g hg
    rw [hlr cfg0 ⟨[⟨1⟩]⟩ 75 g hg]
    norm_num [cfg0]

theorem adjust_learning_rate_step_decay_witness :
    adjust_learning_rate cfg0 ⟨[⟨1⟩]⟩ 75 =
      adjust_learning_rate { cfg0 with lr_steps := [60, 30] } ⟨[⟨1⟩]⟩ 75 :=
  adjust_learning_rate_step_decay.2.1 cfg0 [60, 30] (by decide) ⟨[⟨1⟩]⟩ 75

lemma collectValues_eq_none_iff (values : List (String × String))
    (cols : List String) :
    collectValues values cols = none ↔
      ∃ col ∈ cols, values.lookup col = none := by
  induction cols with
  | nil => simp [collectValues]
  | cons c cs ih =>
    cases h : values.lookup c with
    | none =>
      simp only [collectValues, h]
      exact ⟨fun _ => ⟨c, by simp, h⟩, fun _ => trivial⟩
    | some v =>
      simp only [collectValues, h, Option.map_eq_none']
      rw [ih]
      constructor
      · rintro ⟨col, hcol, hl⟩
        exact ⟨col, by simp [hcol], hl⟩
      · rintro ⟨col, hcol, hl⟩
        rcases List.mem_cons.mp hcol with rfl | hcol
        · rw [h] at hl; cases hl
        · exact ⟨col, hcol, hl⟩

lemma collectValues_eq_some (values : List (String × String))
    (cols : List String)
    (h : ∀ col ∈ cols, (values.lookup col).isSome = true) :
    collectValues values cols =
      some (cols.map (fun col => (values.lookup col).getD "")) := by
  induction cols with
  | nil => simp [collectValues]
  | cons c cs ih =>
    obtain ⟨v, hv⟩ := Option.isSome_iff_exists.mp (h c (by simp))
    have ih' := ih (fun col hc => h col (by simp [hc]))
    simp only [collectValues, List.map_cons, hv, ih']
    simp

/-- C6: `Logger.log` fails the assertion (writing nothing) exactly when some
header column is missing from `values`; otherwise it appends exactly one
tab-delimited row with the values in header order and flushes the stream. -/
theorem logger_log_row_or_assert (s : Logger)
    (values : List (String × String)) :
    (Logger.log s values = none ↔
      ∃ col ∈ s.header, values.lookup col = none) ∧
    ((∀ col ∈ s.header, (values.lookup col).isSome = true) →
      Logger.log s values = some
        { header := s.header,
          durable := s.durable ++ s.buffer ++
            [String.intercalate "\t"
              (s.header.map (fun col => (values.lookup col).getD ""))],
          buffer := [] }) := by
  constructor
  · rw [← collectValues_eq_none_iff values s.header]
    unfold Logger.log
    cases h : collectValues values s.header <;> simp [h]
  · intro h
    unfold Logger.log
    rw [collectValues_eq_some values s.header h]
    simp [Logger.writerow, Logger.flush]

theorem logger_log_row_or_assert_witness :
    Logger.log (Logger.init ["epoch", "loss"])
        [("epoch", "1"), ("loss", "0.5")] =
      some { header := ["epoch", "loss"],
             durable := ["epoch\tloss", "1\t0.5"], buffer := [] } := by
  rw [(logger_log_row_or_assert (Logger.init ["epoch", "loss"])
    [("epoch", "1"), ("loss", "0.5")]).2 (by decide)]
  decide

lemma runUpdates_cons (s : AverageMeter) (p : ℚ × ℕ) (l : List (ℚ × ℕ)) :
    runUpdates s (p :: l) =
      (s.update p.1 p.2).bind (fun s' => runUpdates s' l) := by
  cases h : s.update p.1 p.2 <;>
    simp [runUpdates, List.foldlM_cons, h, Option.bind]

lemma runUpdates_append (s : AverageMeter) (l₁ l₂ : List (ℚ × ℕ)) :
    runUpdates s (l₁ ++ l₂) =
      (runUpdates s l₁).bind (fun m => runUpdates m l₂) := by
  simp only [runUpdates, List.foldlM_append]
  cases h : List.foldlM (fun s p => AverageMeter.update s p.1 p.2) s l₁ <;>
    simp [h, Option.bind]

lemma runUpdates_ok (l : List (ℚ × ℕ)) : ∀ s : AverageMeter,
    (∀ p ∈ l, 1 ≤ p.2) →
    ∃ m, runUpdates s l = some m ∧ s.count ≤ m.count ∧
      ((0 < s.count → s.avg = s.sum / s.count) →
        (0 < m.count → m.avg = m.sum / m.count)) := by
  induction l with
  | nil => exact fun s _ => ⟨s, rfl, le_refl _, fun h => h⟩
  | cons p l ih =>
    intro s hall
    have hn : 1 ≤ p.2 := hall p (by simp)
    have hne : s.count + p.2 ≠ 0 := by omega
    have hupd : s.update p.1 p.2 =
        some { val := p.1,
               avg := (s.sum + p.1 * p.2) / ((s.count : ℚ) + p.2),
               sum := s.sum + p.1 * p.2, count := s.count + p.2 } := by
      simp [AverageMeter.update, hne]
    obtain ⟨m, hm, hc, hinv⟩ :=
      ih _ (fun q hq => hall q (by simp [hq]))
    refine ⟨m, ?_, ?_, fun _ => hinv ?_⟩
    · rw [runUpdates_cons, hupd]; exact hm
    · calc s.count ≤ s.count + p.2 := Nat.le_add_right _ _
        _ ≤ m.count := hc
    · intro _
      show (s.sum + p.1 * p.2) / ((s.count : ℚ) + p.2) =
        (s.sum + p.1 * p.2) / ((s.count + p.2 : ℕ) : ℚ)
      push_cast
      rfl

/-- C8: starting from a fresh/reset `AverageMeter`, any sequence of
`update(val, n)` calls with `n ≥ 1` succeeds and maintains
`avg = sum / count` whenever `count > 0`; `count` is non-decreasing as
updates accumulate; `reset` zeroes all four fields; and the spec's concrete
example `update(3,2); update(5,1)` yields sum 11, count 3, avg 11/3. -/
theorem averageMeter_invariants (l₁ l₂ : List (ℚ × ℕ))
    (h : ∀ p ∈ l₁ ++ l₂, 1 ≤ p.2) :
    (∀ m : AverageMeter,
      m.reset = { val := 0, avg := 0, sum := 0, count := 0 }) ∧
    (∃ m₁ m₂, runUpdates AverageMeter.init l₁ = some m₁ ∧
      runUpdates AverageMeter.init (l₁ ++ l₂) = some m₂ ∧
      (0 < m₁.count → m₁.avg = m₁.sum / m₁.count) ∧
      (0 < m₂.count → m₂.avg = m₂.sum / m₂.count) ∧
      m₁.count ≤ m₂.count) ∧
    runUpdates AverageMeter.init [(3, 2), (5, 1)] =
      some { val := 5, avg := 11 / 3, sum := 11, count := 3 } := by
  have h₁ : ∀ p ∈ l₁, 1 ≤ p.2 := fun p hp => h p (by simp [hp])
  have h₂ : ∀ p ∈ l₂, 1 ≤ p.2 := fun p hp => h p (by simp [hp])
  have hinit : 0 < AverageMeter.init.count →
      AverageMeter.init.avg = AverageMeter.init.sum /
        AverageMeter.init.count := by
    intro h0; simp [AverageMeter.init] at h0
  obtain ⟨m₁, hm₁, hc₁, hinv₁⟩ := runUpdates_ok l₁ AverageMeter.init h₁
  obtain ⟨m₂, hm₂, hc₂, hinv₂⟩ := runUpdates_ok l₂ m₁ h₂
  refine ⟨fun m => rfl,
    ⟨m₁, m₂, hm₁, ?_, hinv₁ hinit, hinv₂ (hinv₁ hinit), hc₂⟩, ?_⟩
  · rw [runUpdates_append, hm₁]; exact hm₂
  · norm_num [runUpdates, List.foldlM, AverageMeter.update,
      AverageMeter.init]

theorem averageMeter_invariants_witness :
    (∀ p ∈ ([(3, 2), (5, 1)] : List (ℚ × ℕ)), 1 ≤ p.2) ∧
    runUpdates AverageMeter.init [(3, 2), (5, 1)] =
      some { val := 5, avg := 11 / 3, sum := 11, count := 3 } :=
  ⟨by simp, (averageMeter_invariants [(3, 2)] [(5, 1)] (by simp)).2.2⟩

/-- C10: on a meter whose count is 0, `update(val, 0)` divides by a zero
count and fails; any call with `n ≥ 1` divides by a strictly positive count
and cannot fail. -/
theorem averageMeter_update_division (m : AverageMeter) (v : ℚ) (n : ℕ) :
    (m.count = 0 → m.update v 0 = none) ∧
    (1 ≤ n → ∃ m', m.update v n = some m' ∧ 0 < m'.count) := by
  constructor
  · intro h; simp [AverageMeter.update, h]
  · intro hn
    have hne : m.count + n ≠ 0 := by omega
    refine ⟨{ val := v,
              avg := (m.sum + v * n) / ((m.count : ℚ) + n),
              sum := m.sum + v * n, count := m.count + n },
      by simp [AverageMeter.update, hne], ?_⟩
    show 0 < m.count + n
    omega

theorem averageMeter_update_division_witness :
    AverageMeter.init.count = 0 ∧
    AverageMeter.update AverageMeter.init 1 0 = none ∧
    (∃ m', AverageMeter.update AverageMeter.init 1 1 = some m' ∧
      0 < m'.count) :=
  ⟨rfl, (averageMeter_update_division AverageMeter.init 1 0).1 rfl,
    (averageMeter_update_division AverageMeter.init 1 1).2 (le_refl 1)⟩

lemma sum_map_add_distrib {β : Type} (js : List β) (f g : β → ℕ) :
    (js.map (fun j => f j + g j)).sum = (js.map f).sum + (js.map g).sum := by
  induction js with
  | nil => simp
  | cons j js ih => simp [ih]; omega

lemma sum_map_ite_mem {α : Type} (l : List α) (q : α → Prop)
    [DecidablePred q] :
    (l.map (fun a => if q a then (1 : ℕ) else 0)).sum =
      l.countP (fun a => decide (q a)) := by
  induction l with
  | nil => simp
  | cons a l ih =>
    by_cases h : q a <;> simp [List.countP_cons, h, ih, Nat.add_comm]

lemma sum_map_countP_comm {α β : Type} (l : List α) (js : List β)
    (p : α → β → Bool) :
    (js.map (fun j => l.countP (fun a => p a j))).sum =
      (l.map (fun a => js.countP (fun j => p a j))).sum := by
  induction l with
  | nil => simp
  | cons a l ih =>
    have hcons : ∀ j, (a :: l).countP (fun x => p x j) =
        l.countP (fun x => p x j) + (if p a j then 1 else 0) := by
      intro j; rw [List.countP_cons]
    calc (js.map (fun j => (a :: l).countP (fun x => p x j))).sum
        = (js.map (fun j =>
            l.countP (fun x => p x j) + (if p a j then 1 else 0))).sum := by
          simp only [hcons]
      _ = (js.map (fun j => l.countP (fun x => p x j))).sum +
          (js.map (fun j => (if p a j then 1 else 0))).sum :=
          sum_map_add_distrib _ _ _
      _ = (l.map (fun x => js.countP (fun j => p x j))).sum +
          js.countP (fun j => p a j) := by
          rw [ih]
          congr 1
          rw [sum_map_ite_mem js (fun j => p a j = true)]
          simp
      _ = ((a :: l).map (fun x => js.countP (fun j => p x j))).sum := by
          simp [Nat.add_comm]

lemma countP_zipWith_eq_countP_zip {α β : Type} (f : α → β → Bool) :
    ∀ (A : List α) (B : List β),
      (List.zipWith f A B).countP (fun b => b) =
        (A.zip B).countP (fun p => f p.1 p.2) := by
  intro A
  induction A with
  | nil => intro B; simp
  | cons a A ih =>
    intro B
    cases B with
    | nil => simp
    | cons b B => simp [List.countP_cons, ih]

lemma countP_range_getD_eq_count_take {α : Type} [DecidableEq α] (L : List α)
    (d : α) (t : α) : ∀ k, k ≤ L.length →
    (List.range k).countP (fun j => decide (L.getD j d = t)) =
      (L.take k).count t := by
  intro k
  induction k with
  | zero => simp
  | succ k ih =>
    intro hk
    have hlt : k < L.length := Nat.lt_of_succ_le hk
    rw [List.range_succ, List.countP_append, ih (Nat.le_of_succ_le hk),
      List.take_succ, List.count_append,
      List.getElem?_eq_getElem hlt]
    congr 1
    have hg : L.getD k d = L[k] := List.getD_eq_getElem L d hlt
    by_cases h : L[k] = t <;>
      simp [List.countP_cons, List.count_cons, hg, h,
        List.getElem?_eq_getElem hlt]

lemma count_eq_ite_of_nodup {α : Type} [DecidableEq α] (L : List α)
    (h : L.Nodup) (t : α) :
    L.count t = if t ∈ L then 1 else 0 := by
  by_cases hm : t ∈ L
  · simp [hm, List.count_eq_one_of_mem h hm]
  · simp [hm, List.count_eq_zero.mpr hm]

lemma sortedIdx_perm (row : List ℚ) :
    (sortedIdx row).Perm (List.range row.length) :=
  List.perm_insertionSort _ _

lemma sortedIdx_nodup (row : List ℚ) : (sortedIdx row).Nodup :=
  ((sortedIdx_perm row).nodup_iff).mpr (List.nodup_range _)

lemma sortedIdx_length (row : List ℚ) :
    (sortedIdx row).length = row.length := by
  rw [(sortedIdx_perm row).length_eq, List.length_range]

lemma topkIdx_nodup (row : List ℚ) (k : ℕ) : (topkIdx row k).Nodup :=
  (List.take_sublist _ _).nodup (sortedIdx_nodup row)

lemma topkIdx_length (row : List ℚ) (k : ℕ) :
    (topkIdx row k).length = min k row.length := by
  simp [topkIdx, List.length_take, sortedIdx_length]

lemma take_topkIdx (row : List ℚ) (k maxk : ℕ) (h : k ≤ maxk) :
    (topkIdx row maxk).take k = topkIdx row k := by
  simp [topkIdx, List.take_take, Nat.min_eq_left h]

lemma le_foldr_max (topk : List ℕ) : ∀ k ∈ topk, k ≤ topk.foldr max 0 := by
  induction topk with
  | nil => simp
  | cons a l ih =>
    intro k hk
    rcases List.mem_cons.mp hk with rfl | hk
    · exact Nat.le_max_left _ _
    · exact le_trans (ih k hk) (Nat.le_max_right _ _)

lemma foldr_max_le (topk : List ℕ) (C : ℕ) (h : ∀ k ∈ topk, k ≤ C) :
    topk.foldr max 0 ≤ C := by
  induction topk with
  | nil => simp
  | cons a l ih =>
    simp only [List.foldr_cons]
    exact max_le (h a (by simp)) (ih (fun k hk => h k (by simp [hk])))

lemma countP_range_mem_topkIdx (row : List ℚ) (t : ℕ) (k maxk : ℕ)
    (hk : k ≤ maxk) (hmax : maxk ≤ row.length) :
    (List.range k).countP
        (fun j => decide ((topkIdx row maxk).getD j 0 = t)) =
      if t ∈ topkIdx row k then 1 else 0 := by
  have hlen : k ≤ (topkIdx row maxk).length := by
    rw [topkIdx_length]; omega
  rw [countP_range_getD_eq_count_take _ 0 t k hlen,
    take_topkIdx row k maxk hk,
    count_eq_ite_of_nodup _ (topkIdx_nodup row k) t]

lemma mem_topkIdx_one_of_strict (row : List ℚ) (t : ℕ)
    (ht : t < row.length)
    (hs : ∀ j < row.length, j ≠ t → row.getD j 0 < row.getD t 0) :
    t ∈ topkIdx row 1 := by
  have hperm := sortedIdx_perm row
  have htmem : t ∈ sortedIdx row :=
    (hperm.mem_iff).mpr (List.mem_range.mpr ht)
  have hlen := sortedIdx_length row
  obtain ⟨h, tl, heq⟩ : ∃ h tl, sortedIdx row = h :: tl := by
    cases hsi : sortedIdx row with
    | nil => rw [hsi] at hlen; simp at hlen; omega
    | cons h tl => exact ⟨h, tl, rfl⟩
  have hsorted : List.Sorted (topkRel row) (sortedIdx row) :=
    List.sorted_insertionSort _ _
  rw [heq] at hsorted
  have hhead : ∀ x ∈ tl, topkRel row h x := (List.sorted_cons.mp hsorted).1
  have hmem : h ∈ sortedIdx row := by rw [heq]; exact List.mem_cons_self _ _
  have hhlt : h < row.length := List.mem_range.mp ((hperm.mem_iff).mp hmem)
  by_cases hht : h = t
  · rw [topkIdx, heq, hht]
    simp
  · exfalso
    have htl : t ∈ tl := by
      rw [heq] at htmem
      rcases List.mem_cons.mp htmem with h1 | h1
      · exact absurd h1.symm hht
      · exact h1
    have hrel := hhead t htl
    have hlt := hs h hhlt hht
    rcases hrel with hr | ⟨hr, _⟩
    · exact absurd hlt (not_lt.mpr (le_of_lt hr))
    · exact lt_irrefl _ (hr ▸ hlt)

lemma correct_count_eq (output : List (List ℚ)) (target : List ℕ)
    (k maxk C : ℕ) (hrows : ∀ row ∈ output, row.length = C)
    (hk : k ≤ maxk) (hmaxC : maxk ≤ C) :
    ((((transposeN maxk 0 (output.map (fun row => topkIdx row maxk))).map
          (fun prow =>
            List.zipWith (fun p t => decide (p = t)) prow target)).take
        k).flatten).countP (fun b => b) =
      (output.zip target).countP (fun p => decide (p.2 ∈ topkIdx p.1 k)) := by
  rw [← List.map_take]
  have htr : (transposeN maxk 0
        (output.map (fun row => topkIdx row maxk))).take k =
      (List.range k).map (fun j =>
        (output.map (fun row => topkIdx row maxk)).map
          (fun r => r.getD j 0)) := by
    simp only [transposeN, ← List.map_take, List.take_range,
      Nat.min_eq_left hk]
  rw [htr, List.countP_flatten, List.map_map, List.map_map]
  have hstep : ∀ j : ℕ,
      (List.zipWith (fun p t => decide (p = t))
          ((output.map (fun row => topkIdx row maxk)).map
            (fun r => r.getD j 0)) target).countP (fun b => b) =
        (output.zip target).countP
          (fun p => decide ((topkIdx p.1 maxk).getD j 0 = p.2)) := by
    intro j
    rw [countP_zipWith_eq_countP_zip, List.map_map, List.zip_map_left,
      List.countP_map]
    rfl
  simp only [Function.comp_def]
  simp only [hstep]
  rw [sum_map_countP_comm (output.zip target) (List.range k)
    (fun p j => decide ((topkIdx p.1 maxk).getD j 0 = p.2))]
  have hAll : ∀ p ∈ output.zip target,
      (List.range k).countP
          (fun j => decide ((topkIdx p.1 maxk).getD j 0 = p.2)) =
        if p.2 ∈ topkIdx p.1 k then 1 else 0 := by
    intro p hp
    have hpo : p.1 ∈ output := (List.of_mem_zip hp).1
    exact countP_range_mem_topkIdx p.1 p.2 k maxk hk
      (by rw [hrows p.1 hpo]; exact hmaxC)
  rw [List.map_congr_left hAll,
    sum_map_ite_mem (output.zip target) (fun p => p.2 ∈ topkIdx p.1 k)]

/-- C9: `calculate_accuracy` returns one value per requested `k`, in request
order, each equal to `100 × (number of examples whose true class is among
the k highest-scoring classes, under the embedding's top-k tie-breaking) /
batch_size`; and when the true class has the strictly highest score for
every example, the result reported for `k = 1` is 100. -/
theorem calculate_accuracy_topk (output : List (List ℚ)) (target : List ℕ)
    (topk : List ℕ) (C : ℕ)
    (hrows : ∀ row ∈ output, row.length = C)
    (hlen : target.length = output.length)
    (hks : ∀ k ∈ topk, k ≤ C) :
    calculate_accuracy output target topk =
      topk.map (fun k =>
        100 * (((output.zip target).countP
              (fun p => decide (p.2 ∈ topkIdx p.1 k))) : ℚ) /
          (target.length : ℚ)) ∧
    ((∀ p ∈ output.zip target, p.2 < p.1.length ∧
        ∀ j < p.1.length, j ≠ p.2 → p.1.getD j 0 < p.1.getD p.2 0) →
      0 < target.length →
      ∀ i < topk.length, topk.getD i 0 = 1 →
        (calculate_accuracy output target topk).getD i 0 = 100) := by
  have hmaineq : calculate_accuracy output target topk =
      topk.map (fun k =>
        100 * (((output.zip target).countP
              (fun p => decide (p.2 ∈ topkIdx p.1 k))) : ℚ) /
          (target.length : ℚ)) := by
    simp only [calculate_accuracy]
    refine List.map_congr_left ?_
    intro k hk
    have hkmax : k ≤ topk.foldr max 0 := le_foldr_max topk k hk
    have hmaxC : topk.foldr max 0 ≤ C := foldr_max_le topk C hks
    rw [correct_count_eq output target k (topk.foldr max 0) C hrows hkmax
      hmaxC]
    rw [mul_comm, div_mul_eq_mul_div]
  refine ⟨hmaineq, ?_⟩
  intro hstrict hbatch i hi hk1
  have hi' : i < (topk.map (fun k =>
      100 * (((output.zip target).countP
            (fun p => decide (p.2 ∈ topkIdx p.1 k))) : ℚ) /
        (target.length : ℚ))).length := by simpa using hi
  rw [hmaineq, List.getD_eq_getElem _ 0 hi', List.getElem_map]
  have hki : topk[i] = 1 := by
    rw [← List.getD_eq_getElem topk 0 hi]; exact hk1
  rw [hki]
  have hall : ∀ p ∈ output.zip target,
      decide (p.2 ∈ topkIdx p.1 1) = true := by
    intro p hp
    obtain ⟨h1, h2⟩ := hstrict p hp
    simpa using mem_topkIdx_one_of_strict p.1 p.2 h1 h2
  rw [List.countP_eq_length.mpr hall]
  have hzlen : (output.zip target).length = target.length := by
    rw [List.length_zip, hlen]; exact Nat.min_self _
  rw [hzlen]
  have hB : (target.length : ℚ) ≠ 0 := Nat.cast_ne_zero.mpr hbatch.ne'
  rw [mul_div_assoc, div_self hB, mul_one]

theorem calculate_accuracy_topk_witness :
    calculate_accuracy [[1, 9], [8, 2]] [1, 0] [1] =
      [1].map (fun k =>
        100 * ((((([[1, 9], [8, 2]] : List (List ℚ))).zip
              ([1, 0] : List ℕ)).countP
              (fun p => decide (p.2 ∈ topkIdx p.1 k))) : ℚ) /
          (([1, 0] : List ℕ).length : ℚ)) :=
  (calculate_accuracy_topk [[1, 9], [8, 2]] [1, 0] [1] 2
    (by simp) rfl (by simp)).1
